import Mathlib

/-!
# Workitem agent (`main.c`): directory snapshots, artifact diff, drain loop

A shallow embedding of `src/main.c`.  The C program is a callback-driven worker: on a queue
event it snapshots the working directory, pops workitems until the queue is empty, runs the
processing function on each, attaches the files that appeared since the snapshot, reports the
item back through `update_workitem`, and unlinks the new files.

Modelling conventions.

* C strings are `String`; `strcmp (a, b) == 0` is `a == b`.
* A C array together with its element count is a `List` together with a `count` field; every
  loop `for (i = 0; i < count; i++)` runs over the first `count` cells.
* `malloc`, `realloc` and `strdup` are taken to succeed, and `int` counters stay within range.
* The file system is a state: the working directory is a list of entries in `readdir` order,
  each carrying what `stat` answers for its name.  `unlink`, whose result the program ignores,
  is taken to succeed: it removes the entry of that name.
* What `fopen (name, "w")` does to the working directory is decided by the operating system
  (it may create the file, truncate it, follow a link and create its target, open a device, or
  fail), so it is a parameter of the model, not a definition.  Library calls are taken to
  return.
* The queue service (`pop_workitem`, `update_workitem`) is an oracle indexed by call number;
  every call is recorded in a trace together with the log lines and the `unlink` calls.
* `free_*` calls have no observable effect and are left out.
-/

namespace WorkitemAgent

/-! ## Data model -/

/-- Default workitem queue (`DEFAULT_WIQ`, line 10). -/
def DEFAULT_WIQ : String := "cqueue"

/-- File kinds selected by the `S_IFMT` bits of `st_mode`, as `stat` reports them.  `stat`
follows symbolic links, so the kind of a link itself is never reported. -/
inductive FileKind
  | regular
  | directory
  | charDevice
  | blockDevice
  | fifo
  | socket
  deriving DecidableEq, Repr

/-- One entry returned by `readdir`.  `is_symlink` tells whether the entry itself is a symbolic
link; `st` is the answer of `stat (d_name, &file_stat)`: `none` when the call returns non-zero
(the entry vanished after it was listed, or it is a dangling link), otherwise the kind of the
file the name resolves to. -/
structure DirEntry where
  d_name : String
  is_symlink : Bool
  st : Option FileKind
  deriving DecidableEq, Repr

/-- The working directory `"."`: `none` when `opendir` fails, otherwise its entries in the
order `readdir` yields them. -/
structure FileSystem where
  cwd : Option (List DirEntry)
  deriving DecidableEq, Repr

/-- Structure to store file list (`FileList`, lines 16-20). -/
structure FileList where
  files : List String
  count : Nat
  capacity : Nat
  deriving DecidableEq, Repr

/-- The fields of `struct WorkitemWrapper` (declared in `clib_openiap.h`) that `main.c` reads
or writes. -/
structure WorkitemWrapper where
  id : String
  retries : Int
  state : String
  errortype : String
  errormessage : String
  errorsource : String
  deriving DecidableEq, Repr

/-- The `struct WorkitemFileWrapper` of `clib_openiap.h`; `id = none` is the `NULL` pointer. -/
structure WorkitemFileWrapper where
  filename : String
  id : Option String
  compressed : Bool
  deriving DecidableEq, Repr

/-- The `struct PopWorkitemRequestWrapper` as initialised at lines 47-51. -/
structure PopWorkitemRequestWrapper where
  wiq : String
  wiqid : Option String
  request_id : Int
  deriving DecidableEq, Repr

/-- The fields of `struct PopWorkitemResponseWrapper` tested at line 61; `workitem = none` is
the `NULL` pointer. -/
structure PopWorkitemResponseWrapper where
  success : Bool
  workitem : Option WorkitemWrapper
  deriving DecidableEq, Repr

/-- The `struct UpdateWorkitemRequestWrapper` as initialised at lines 179-185; `files = none`
is the `NULL` array pointer. -/
structure UpdateWorkitemRequestWrapper where
  workitem : WorkitemWrapper
  ignoremaxretries : Bool
  files : Option (List WorkitemFileWrapper)
  files_len : Int
  request_id : Int
  deriving DecidableEq, Repr

/-- The fields of `struct UpdateWorkitemResponseWrapper` read at lines 190-195. -/
structure UpdateWorkitemResponseWrapper where
  success : Bool
  error : String
  deriving DecidableEq, Repr

/-- Severity of a log line: `info (...)` or `error (...)`. -/
inductive Level
  | info
  | error
  deriving DecidableEq, Repr

/-- Observable actions of the program, in the order they happen.  A `pop` event also records
the state of the download folder `"."` at the moment of the call. -/
inductive Event
  | log (level : Level) (msg : String)
  | pop (req : PopWorkitemRequestWrapper) (downloadfolder : String) (dir : FileSystem)
  | update (req : UpdateWorkitemRequestWrapper)
  | unlink (name : String)
  deriving DecidableEq, Repr

/-- The queue service behind the global `client`: the answer to the `k`-th `pop_workitem` call
and to the `k`-th `update_workitem` call (`none` is a `NULL` response). -/
structure Service where
  pop : Nat → Option PopWorkitemResponseWrapper
  update : Nat → UpdateWorkitemRequestWrapper → Option UpdateWorkitemResponseWrapper

/-- Program state: the working directory, the trace of observable actions and the number of
service calls made so far. -/
structure World where
  fs : FileSystem
  trace : List Event
  pop_calls : Nat
  update_calls : Nat
  deriving DecidableEq, Repr

/-- What a processing function leaves behind: the file system and the lines it logged. -/
structure Executed where
  fs : FileSystem
  log : List (Level × String)
  deriving DecidableEq, Repr

/-- A processing function (`process_workitem` and its replacements): it reads the workitem, may
change the working directory and may log. -/
abbrev Executor := WorkitemWrapper → FileSystem → Executed

/-! ## Library calls -/

/-- The call `snprintf (buf, size, ...)` applied to the fully formatted text: at most `size - 1`
characters are stored (bytes and characters coincide for ASCII text). -/
def snprintf (size : Nat) (text : String) : String := text.take (size - 1)

/-- The call `stat (entry->d_name, &file_stat)`. -/
def stat (entry : DirEntry) : Option FileKind := entry.st

/-- The macro `S_ISREG (file_stat.st_mode)`. -/
def S_ISREG (kind : FileKind) : Bool := kind == FileKind.regular

/-- The call `unlink (name)`: the entry of that name leaves the directory. -/
def unlink (name : String) (fs : FileSystem) : FileSystem :=
  { cwd := fs.cwd.map (fun entries => entries.filter (fun e => !(e.d_name == name))) }

/-- The answer of the operating system to `fopen (name, "w")` followed by the write and
`fclose`, as a function of the working directory: `none` when `fopen` returns `NULL`, otherwise
the working directory once the file has been opened and written.  Which entries appear or
change is up to the operating system: the name may be created, an existing file truncated, a
dangling link followed and its target created, a device opened. -/
abbrev Fopen := String → FileSystem → Option FileSystem

/-! ## Logging and tracing -/

/-- Append one event to the trace. -/
def emit (e : Event) (w : World) : World := { w with trace := w.trace ++ [e] }

/-- The logging call `info (msg)`. -/
def info (msg : String) (w : World) : World := emit (Event.log Level.info msg) w

/-- The logging call `error (msg)`. -/
def error (msg : String) (w : World) : World := emit (Event.log Level.error msg) w

/-! ## `list_files` (lines 220-282) -/

/-- Lines 257-276: grow the array when it is full, then store the name and bump `count`. -/
def push_file (result : FileList) (name : String) : FileList :=
  let result :=
    if result.count ≥ result.capacity then { result with capacity := result.capacity * 2 }
    else result
  { result with files := result.files ++ [name], count := result.count + 1 }

/-- The `while ((entry = readdir (dir)) != NULL)` loop of `list_files` (lines 249-278). -/
def list_files_loop : List DirEntry → FileList → FileList
  | [], result => result
  | entry :: rest, result =>
    if entry.d_name == "." || entry.d_name == ".." then
      list_files_loop rest result
    else
      match stat entry with
      | some kind =>
        if S_ISREG kind then list_files_loop rest (push_file result entry.d_name)
        else list_files_loop rest result
      | none => list_files_loop rest result

/-- Get the list of current files (`list_files`); `none` is the `NULL` result. -/
def list_files (fs : FileSystem) : Option FileList :=
  match fs.cwd with
  | none => none
  | some entries => some (list_files_loop entries { files := [], count := 0, capacity := 10 })

/-! ## `get_new_files` (lines 297-348) -/

/-- The inner loop of `get_new_files` (lines 319-326): scan the original names, stop at the
first one that compares equal. -/
def found_in (name : String) : List String → Bool
  | [] => false
  | original :: rest => if name == original then true else found_in name rest

/-- The outer loop of `get_new_files` (lines 318-344) over the current names. -/
def get_new_files_loop (original_files : FileList) : List String → FileList → FileList
  | [], new_files => new_files
  | current :: rest, new_files =>
    if found_in current (original_files.files.take original_files.count) then
      get_new_files_loop original_files rest new_files
    else
      get_new_files_loop original_files rest (push_file new_files current)

/-- The double loop of `get_new_files` started on the empty result (lines 307-344). -/
def new_files_of (original_files current_files : FileList) : FileList :=
  get_new_files_loop original_files (current_files.files.take current_files.count)
    { files := [], count := 0, capacity := 10 }

/-- Find new files that were not in the original list (`get_new_files`); `none` is `NULL`. -/
def get_new_files (original_files : FileList) (fs : FileSystem) : Option FileList :=
  match list_files fs with
  | none => none
  | some current_files => some (new_files_of original_files current_files)

/-! ## `cleanup_files` (lines 351-366) -/

/-- The `for` loop of `cleanup_files` (lines 358-363): log, then unlink, each new file. -/
def cleanup_loop : List String → World → World
  | [], w => w
  | name :: rest, w =>
    let w := info (snprintf 256 ("Deleting file: " ++ name)) w
    let w := emit (Event.unlink name) { w with fs := unlink name w.fs }
    cleanup_loop rest w

/-- Delete files that were not in the original list (`cleanup_files`). -/
def cleanup_files (original_files : FileList) (w : World) : World :=
  match get_new_files original_files w.fs with
  | none => w
  | some new_files => cleanup_loop (new_files.files.take new_files.count) w

/-! ## `process_workitem` and `process_workitem_wrapper` (lines 92-217) -/

/-- Process a single workitem (`process_workitem`, lines 92-106): log the id and retry count,
then open `hello.txt` for writing; `fopen` is the answer of the operating system. -/
def process_workitem (fopen : Fopen) : Executor := fun workitem fs =>
  let log_message :=
    snprintf 256 ("Processing workitem id " ++ workitem.id ++ ", retry #"
      ++ toString workitem.retries)
  match fopen "hello.txt" fs with
  | some fs' =>
    { fs := fs', log := [(Level.info, log_message), (Level.info, "Created hello.txt file")] }
  | none =>
    { fs := fs,
      log := [(Level.info, log_message), (Level.error, "Failed to create hello.txt file")] }

/-- The `if (success) ... else ...` block of `process_workitem_wrapper` (lines 121-142) as a
function of the flag. -/
def set_workitem_state (success : Int) (workitem : WorkitemWrapper) (w : World) :
    WorkitemWrapper × World :=
  if success ≠ 0 then
    ({ workitem with state := "successful" }, info "Workitem processed successfully" w)
  else
    ({ workitem with state := "retry", errortype := "application",
                     errormessage := "Processing failed", errorsource := "Unknown source" },
     info "Workitem processing failed" w)

/-- The `for` loop at lines 161-174: one wrapper per new file, `files_len` counting them. -/
def make_file_wrappers :
    List String → List WorkitemFileWrapper × Int → List WorkitemFileWrapper × Int
  | [], acc => acc
  | name :: rest, (file_wrappers, files_len) =>
    make_file_wrappers rest
      (file_wrappers ++ [{ filename := name, id := none, compressed := false }], files_len + 1)

/-- Lines 148-176: the attachment array and its length, with the log line that goes with
them. -/
def attach_new_files (new_files : Option FileList) (w : World) :
    (Option (List WorkitemFileWrapper) × Int) × World :=
  match new_files with
  | none => ((none, 0), w)
  | some new_files =>
    if new_files.count > 0 then
      let w := info (snprintf 256 ("Found " ++ toString new_files.count
        ++ " new files to attach")) w
      let (file_wrappers, files_len) :=
        make_file_wrappers (new_files.files.take new_files.count) ([], 0)
      ((some file_wrappers, files_len), w)
    else ((none, 0), w)

/-- Wrapper for processing workitems with error handling (`process_workitem_wrapper`), with
the processing function as a parameter. -/
def process_workitem_wrapper (exec : Executor) (svc : Service) (original_files : FileList)
    (workitem : WorkitemWrapper) (w : World) : World :=
  let w := info (snprintf 256 ("Starting processing of workitem " ++ workitem.id)) w
  let success : Int := 1
  let done := exec workitem w.fs
  let w := { w with fs := done.fs,
                    trace := w.trace ++ done.log.map (fun l => Event.log l.1 l.2) }
  let (workitem, w) := set_workitem_state success workitem w
  let new_files := get_new_files original_files w.fs
  let ((file_wrappers, files_len), w) := attach_new_files new_files w
  let update_req : UpdateWorkitemRequestWrapper :=
    { workitem := workitem, ignoremaxretries := false, files := file_wrappers,
      files_len := files_len, request_id := 2 }
  let update_resp := svc.update w.update_calls update_req
  let w := emit (Event.update update_req) { w with update_calls := w.update_calls + 1 }
  match update_resp with
  | some resp =>
    if resp.success then info "Workitem updated successfully" w
    else error (snprintf 256 ("Failed to update workitem: " ++ resp.error)) w
  | none => error (snprintf 256 ("Failed to update workitem: " ++ "Unknown error")) w

/-! ## `queue_event_callback` (lines 33-89) -/

/-- The `do ... while (1)` loop of `queue_event_callback` (lines 57-77).  `fuel` bounds the
number of iterations; `none` means the bound was reached before the loop ended.  The result
carries the final `counter`. -/
def drain_loop (exec : Executor) (svc : Service) (pop_req : PopWorkitemRequestWrapper)
    (original_files : FileList) : Nat → World → Nat → Option (World × Nat)
  | 0, _, _ => none
  | fuel + 1, w, counter =>
    let w := info "Popping workitem from queue" w
    let pop_resp := svc.pop w.pop_calls
    let w := emit (Event.pop pop_req "." w.fs) { w with pop_calls := w.pop_calls + 1 }
    match pop_resp with
    | some { success := true, workitem := some workitem } =>
      let w := info "Workitem popped successfully" w
      let counter := counter + 1
      let w := process_workitem_wrapper exec svc original_files workitem w
      let w := cleanup_files original_files w
      drain_loop exec svc pop_req original_files fuel w counter
    | _ =>
      let w := info "No more workitems in queue or error occurred" w
      some (w, counter)

/-- Lines 44-45: the queue name is `getenv ("wiq")`, or `DEFAULT_WIQ` when that is `NULL`. -/
def wiq_of (wiq_env : Option String) : String :=
  match wiq_env with
  | some v => v
  | none => DEFAULT_WIQ

/-- Queue event callback function (`queue_event_callback`), with the processing function as a
parameter; `wiq_env` is `getenv ("wiq")`. -/
def queue_event_callback_with (exec : Executor) (svc : Service) (wiq_env : Option String)
    (fuel : Nat) (w : World) : Option World :=
  let w := info "Queue event received" w
  match list_files w.fs with
  | none => some (error "Failed to list files" w)
  | some original_files =>
    let wiq := wiq_of wiq_env
    let pop_req : PopWorkitemRequestWrapper := { wiq := wiq, wiqid := none, request_id := 1 }
    match drain_loop exec svc pop_req original_files fuel w 0 with
    | none => none
    | some (w, counter) =>
      let w :=
        if counter > 0 then
          info (snprintf 100 ("No more workitems in " ++ wiq ++ " workitem queue")) w
        else w
      some (cleanup_files original_files w)

/-- Queue event callback function (`queue_event_callback`) as the program runs it, with
`process_workitem` doing the processing. -/
def queue_event_callback (fopen : Fopen) (svc : Service) (wiq_env : Option String)
    (fuel : Nat) (w : World) : Option World :=
  queue_event_callback_with (process_workitem fopen) svc wiq_env fuel w

/-! ## Observers on traces -/

/-- The requests passed to `update_workitem`, in call order. -/
def update_requests : List Event → List UpdateWorkitemRequestWrapper
  | [] => []
  | Event.update req :: rest => req :: update_requests rest
  | _ :: rest => update_requests rest

/-- The names passed to `unlink`, in call order. -/
def unlinked_names : List Event → List String
  | [] => []
  | Event.unlink name :: rest => name :: unlinked_names rest
  | _ :: rest => unlinked_names rest

/-- The directory states seen by the `pop_workitem` calls, in call order. -/
def pop_dirs : List Event → List FileSystem
  | [] => []
  | Event.pop _ _ dir :: rest => dir :: pop_dirs rest
  | _ :: rest => pop_dirs rest

/-! ## Specification-side definitions -/

/-- The entries a snapshot keeps: the name is neither `"."` nor `".."` and `stat` succeeds
with a regular file. -/
def is_listed (e : DirEntry) : Bool :=
  !(e.d_name == "." || e.d_name == "..") && (e.st == some FileKind.regular)

/-- The names a snapshot of these entries holds, in enumeration order. -/
def snapshot_names (entries : List DirEntry) : List String :=
  (entries.filter is_listed).map (fun e => e.d_name)

/-- The spec's `diff (before, after)`: the elements of `after` not present in `before`, in
the order of `after`. -/
def diff_spec (before after : List String) : List String :=
  after.filter (fun name => decide (name ∉ before))

/-- A well-formed `FileList`: `count` cells are in use. -/
def FileList.wf (l : FileList) : Prop := l.count = l.files.length

/-- The names a `FileList` holds: its first `count` cells. -/
def FileList.names (l : FileList) : List String := l.files.take l.count

/-- A regular file proper: not a symbolic link, `stat` reports a regular file, and the name is
neither `"."` nor `".."` (which always name directories). -/
def is_regular_file (e : DirEntry) : Bool := !e.is_symlink && is_listed e

/-- The names of the entries of a directory. -/
def entry_names (entries : List DirEntry) : List String := entries.map (fun e => e.d_name)

/-- The step from `before` to `after` only adds regular files: the entries of `before` are all
still there, unchanged and in the same order, and every other entry of `after` is a regular
file under a name `before` did not have. -/
def only_adds_files (before after : FileSystem) : Prop :=
  match before.cwd, after.cwd with
  | some old, some new =>
    new.filter (fun e => decide (e.d_name ∈ entry_names old)) = old ∧
    ∀ e ∈ new, e.d_name ∉ entry_names old → is_regular_file e = true
  | none, none => True
  | _, _ => False

/-- The relation `only_adds_files` can be decided by inspecting the two directories. -/
instance only_adds_files_decidable :
    (before after : FileSystem) → Decidable (only_adds_files before after)
  | { cwd := some old }, { cwd := some new } =>
    inferInstanceAs (Decidable
      (new.filter (fun e => decide (e.d_name ∈ entry_names old)) = old ∧
        ∀ e ∈ new, e.d_name ∉ entry_names old → is_regular_file e = true))
  | { cwd := none }, { cwd := none } => isTrue trivial
  | { cwd := some _ }, { cwd := none } => isFalse (fun h => h)
  | { cwd := none }, { cwd := some _ } => isFalse (fun h => h)

/-- What a returning `fopen (name, "w")` can do to the working directory `before`: every entry
that a snapshot of `before` lists is still there, unchanged; and every entry of `after` is
either an unchanged entry of `before`, or an entry that `stat` now reports as a regular file
under a name no listed entry of `before` has (the file just created, the target of a link, or
a link that resolves now that its target exists). -/
def only_creates_files (before after : FileSystem) : Prop :=
  match before.cwd, after.cwd with
  | some old, some new =>
    (∀ e ∈ old, is_listed e = true → e ∈ new) ∧
    ∀ e ∈ new, e ∈ old ∨ (is_listed e = true ∧ e.d_name ∉ snapshot_names old)
  | none, none => True
  | _, _ => False

/-- The relation `only_creates_files` can be decided by inspecting the two directories. -/
instance only_creates_files_decidable :
    (before after : FileSystem) → Decidable (only_creates_files before after)
  | { cwd := some old }, { cwd := some new } =>
    inferInstanceAs (Decidable
      ((∀ e ∈ old, is_listed e = true → e ∈ new) ∧
        ∀ e ∈ new, e ∈ old ∨ (is_listed e = true ∧ e.d_name ∉ snapshot_names old)))
  | { cwd := none }, { cwd := none } => isTrue trivial
  | { cwd := some _ }, { cwd := none } => isFalse (fun h => h)
  | { cwd := none }, { cwd := some _ } => isFalse (fun h => h)

/-- Whether a `pop_workitem` answer passes the test of line 61
(`pop_resp && pop_resp->success && pop_resp->workitem`). -/
def carries_item : Option PopWorkitemResponseWrapper → Bool
  | some { success := true, workitem := some _ } => true
  | _ => false

/-- The answers of the service to `n` consecutive `pop_workitem` calls, the first being call
number `start`. -/
def pop_answers (svc : Service) (start n : Nat) : List (Option PopWorkitemResponseWrapper) :=
  (List.range n).map (fun i => svc.pop (start + i))

/-- The answer that hands out `item`. -/
def item_answer (item : WorkitemWrapper) : Option PopWorkitemResponseWrapper :=
  some { success := true, workitem := some item }

/-- The state in which `pop_workitem` has just been called (lines 58-59). -/
def after_pop (pop_req : PopWorkitemRequestWrapper) (w : World) : World :=
  emit (Event.pop pop_req "." w.fs)
    { info "Popping workitem from queue" w with pop_calls := w.pop_calls + 1 }

/-- One full iteration of the drain loop on a popped item (lines 62-66 and 76). -/
def drain_step (exec : Executor) (svc : Service) (pop_req : PopWorkitemRequestWrapper)
    (original_files : FileList) (item : WorkitemWrapper) (w : World) : World :=
  cleanup_files original_files
    (process_workitem_wrapper exec svc original_files item
      (info "Workitem popped successfully" (after_pop pop_req w)))

/-- The attachment array and `files_len` built from the new-file list (lines 148-176). -/
def attachments_of (new_files : Option FileList) : Option (List WorkitemFileWrapper) × Int :=
  match new_files with
  | none => (none, 0)
  | some l =>
    if l.count > 0 then
      (some (l.names.map (fun name => { filename := name, id := none, compressed := false })),
       (l.names.length : Int))
    else (none, 0)

/-- The request `process_workitem_wrapper` sends for `item` when the directory after
processing is `fs`. -/
def sent_request (original_files : FileList) (item : WorkitemWrapper) (fs : FileSystem) :
    UpdateWorkitemRequestWrapper :=
  { workitem := { item with state := "successful" }, ignoremaxretries := false,
    files := (attachments_of (get_new_files original_files fs)).1,
    files_len := (attachments_of (get_new_files original_files fs)).2, request_id := 2 }

/-- The execution outcome of the spec (section 4.3). -/
inductive ExecutionOutcome
  | Success
  | Retry (errortype message source : String)
  | Fatal (errortype message source : String)
  deriving DecidableEq, Repr

/-- The outcome-to-state mapping in the spec's words (section 4.4, step 1): `Success` gives
`"successful"`, `Retry` and `Fatal` give `"retry"` and `"fatal"` with the carried error
fields. -/
def reconcile_state_spec (outcome : ExecutionOutcome) (item : WorkitemWrapper) :
    WorkitemWrapper :=
  match outcome with
  | ExecutionOutcome.Success => { item with state := "successful" }
  | ExecutionOutcome.Retry t m s =>
    { item with state := "retry", errortype := t, errormessage := m, errorsource := s }
  | ExecutionOutcome.Fatal t m s =>
    { item with state := "fatal", errortype := t, errormessage := m, errorsource := s }

/-- The names `get_new_files` reports in the directory `fs`: the snapshot names that the
original list does not hold (none when the directory cannot be opened). -/
def new_names (original_files : FileList) (fs : FileSystem) : List String :=
  match fs.cwd with
  | none => []
  | some es => diff_spec original_files.names (snapshot_names es)

/-- The log line that goes with the attachment array (lines 152-153). -/
def attach_log (new_files : Option FileList) : List Event :=
  match new_files with
  | none => []
  | some l =>
    if l.count > 0 then
      [Event.log Level.info (snprintf 256 ("Found " ++ toString l.count
        ++ " new files to attach"))]
    else []

/-- The drain loop unrolled over the items the service hands out: one `drain_step` per item,
then the last, unsuccessful pop (lines 58-59 and 68-72). -/
def drain_run (exec : Executor) (svc : Service) (pop_req : PopWorkitemRequestWrapper)
    (original_files : FileList) (items : List WorkitemWrapper) (w : World) : World :=
  info "No more workitems in queue or error occurred"
    (after_pop pop_req
      (items.foldl (fun w item => drain_step exec svc pop_req original_files item w) w))

/-- The workitem as `process_workitem_wrapper` reports it. -/
def reported (item : WorkitemWrapper) : WorkitemWrapper := { item with state := "successful" }

/-- The workitems passed to `update_workitem`, in call order. -/
def updated_items (trace : List Event) : List WorkitemWrapper :=
  (update_requests trace).map (fun req => req.workitem)

/-- The summary line of lines 79-83. -/
def summary_log (wiq : String) (counter : Nat) (w : World) : World :=
  if counter > 0 then
    info (snprintf 100 ("No more workitems in " ++ wiq ++ " workitem queue")) w
  else w

/-- The state `queue_event_callback` returns in when the snapshot succeeds and the service
hands out `items` before its first empty or failed answer. -/
def callback_run (exec : Executor) (svc : Service) (wiq_env : Option String)
    (original_files : FileList) (items : List WorkitemWrapper) (w : World) : World :=
  cleanup_files original_files
    (summary_log (wiq_of wiq_env) items.length
      (drain_run exec svc { wiq := wiq_of wiq_env, wiqid := none, request_id := 1 }
        original_files items (info "Queue event received" w)))

/-! ## Sample inputs -/

/-- A working directory holding the dot entries, regular files, a symbolic link to a regular
file, a subdirectory, a FIFO and a dangling link (whose `stat` fails). -/
def sample_dir : List DirEntry :=
  [ { d_name := ".", is_symlink := false, st := some FileKind.directory },
    { d_name := "..", is_symlink := false, st := some FileKind.directory },
    { d_name := "input.csv", is_symlink := false, st := some FileKind.regular },
    { d_name := "latest", is_symlink := true, st := some FileKind.regular },
    { d_name := "logs", is_symlink := false, st := some FileKind.directory },
    { d_name := "pipe", is_symlink := false, st := some FileKind.fifo },
    { d_name := "stale", is_symlink := true, st := none },
    { d_name := "notes.txt", is_symlink := false, st := some FileKind.regular } ]

/-- The file system whose working directory is `sample_dir`. -/
def sample_fs : FileSystem := { cwd := some sample_dir }

/-- A fresh program state in `sample_fs`. -/
def sample_world : World := { fs := sample_fs, trace := [], pop_calls := 0, update_calls := 0 }

/-- A program state whose working directory cannot be opened. -/
def closed_world : World :=
  { fs := { cwd := none }, trace := [], pop_calls := 0, update_calls := 0 }

/-- Three queued workitems. -/
def sample_items : List WorkitemWrapper :=
  [ { id := "wi-1", retries := 0, state := "processing", errortype := "", errormessage := "",
      errorsource := "" },
    { id := "wi-2", retries := 2, state := "processing", errortype := "application",
      errormessage := "earlier failure", errorsource := "worker" },
    { id := "wi-3", retries := 0, state := "new", errortype := "", errormessage := "",
      errorsource := "" } ]

/-- A queue service that hands out `sample_items` and then answers without an item; its
first update succeeds, its second gets no response, the later ones are rejected. -/
def sample_service : Service :=
  { pop := fun k =>
      match sample_items.get? k with
      | some item => item_answer item
      | none => some { success := true, workitem := none }
    update := fun k _ =>
      if k = 1 then none else some { success := k == 0, error := "update rejected" } }

/-- One answer an operating system can give to `fopen (name, "w")`: the file is created, as
the last entry of the directory, when the name is free, and the call fails when the name is
taken (as it does on a file the process may not write) or the directory cannot be opened. -/
def sample_fopen : Fopen := fun name fs =>
  match fs.cwd with
  | none => none
  | some entries =>
    if name ∈ entry_names entries then none
    else some { cwd := some (entries ++ [{ d_name := name, is_symlink := false,
                                           st := some FileKind.regular }]) }

/-- A working directory holding a regular file and the dangling link `hello.txt`, which points
to the missing `target.txt`. -/
def linked_fs : FileSystem :=
  { cwd := some
      [ { d_name := "keep.txt", is_symlink := false, st := some FileKind.regular },
        { d_name := "hello.txt", is_symlink := true, st := none } ] }

/-- The directory `linked_fs` after `fopen ("hello.txt", "w")`: the link has been followed,
`target.txt` exists and `hello.txt` resolves to it. -/
def linked_fs_written : FileSystem :=
  { cwd := some
      [ { d_name := "keep.txt", is_symlink := false, st := some FileKind.regular },
        { d_name := "hello.txt", is_symlink := true, st := some FileKind.regular },
        { d_name := "target.txt", is_symlink := false, st := some FileKind.regular } ] }

/-- An operating system answer that follows the dangling link of `linked_fs` and creates its
target; on any other directory it answers as `sample_fopen`. -/
def link_following_fopen : Fopen := fun name fs =>
  if name = "hello.txt" ∧ fs = linked_fs then some linked_fs_written else sample_fopen name fs

/-- A fresh program state in `linked_fs`. -/
def linked_world : World := { fs := linked_fs, trace := [], pop_calls := 0, update_calls := 0 }

/-- A processing function that writes one output file named after the workitem. -/
def sample_executor : Executor := fun item fs =>
  match sample_fopen (item.id ++ ".out") fs with
  | some fs' => { fs := fs', log := [] }
  | none => { fs := fs, log := [(Level.error, "no output written")] }

/-- The first of the sample workitems. -/
def sample_item : WorkitemWrapper :=
  { id := "wi-1", retries := 0, state := "processing", errortype := "", errormessage := "",
    errorsource := "" }

/-- The snapshot of `sample_fs` with a leftover file from earlier processing next to it. -/
def littered_world : World :=
  { fs := { cwd := some (sample_dir ++
      [{ d_name := "hello.txt", is_symlink := false, st := some FileKind.regular }]) },
    trace := [], pop_calls := 0, update_calls := 0 }

/-- The snapshot `list_files` takes of `sample_fs`. -/
def sample_snapshot : FileList :=
  { files := ["input.csv", "latest", "notes.txt"], count := 3, capacity := 10 }

/-! ## Basic lemmas -/

theorem push_file_files (r : FileList) (name : String) :
    (push_file r name).files = r.files ++ [name] := by
  unfold push_file; split <;> rfl

theorem push_file_count (r : FileList) (name : String) :
    (push_file r name).count = r.count + 1 := by
  unfold push_file; split <;> rfl

theorem list_files_loop_spec (entries : List DirEntry) (r : FileList) :
    (list_files_loop entries r).files = r.files ++ snapshot_names entries ∧
    (list_files_loop entries r).count = r.count + (snapshot_names entries).length := by
  induction entries generalizing r with
  | nil => simp [list_files_loop, snapshot_names]
  | cons e rest ih =>
    unfold list_files_loop
    by_cases hdot : (e.d_name == "." || e.d_name == "..") = true
    · rw [if_pos hdot]
      have : is_listed e = false := by simp [is_listed, hdot]
      simpa [snapshot_names, List.filter_cons, this] using ih r
    · rw [if_neg hdot]
      cases hst : e.st with
      | none =>
        have : is_listed e = false := by simp [is_listed, hst]
        simpa [stat, hst, snapshot_names, List.filter_cons, this] using ih r
      | some kind =>
        by_cases hreg : kind = FileKind.regular
        · subst hreg
          have hl : is_listed e = true := by
            simp only [Bool.not_eq_true] at hdot
            simp [is_listed, hst, hdot]
          have h := ih (push_file r e.d_name)
          simp only [stat, hst, S_ISREG, beq_self_eq_true, if_true]
          rw [h.1, h.2, push_file_files, push_file_count]
          simp [snapshot_names, List.filter_cons, hl]
          omega
        · have hl : is_listed e = false := by simp [is_listed, hst, hreg]
          have hs : S_ISREG kind = false := by simp [S_ISREG, hreg]
          simpa [stat, hst, hs, snapshot_names, List.filter_cons, hl] using ih r

theorem list_files_some (entries : List DirEntry) :
    ∃ r, list_files { cwd := some entries } = some r ∧ r.files = snapshot_names entries ∧
      r.count = (snapshot_names entries).length := by
  refine ⟨_, rfl, ?_, ?_⟩
  · simpa using (list_files_loop_spec entries { files := [], count := 0, capacity := 10 }).1
  · simpa using (list_files_loop_spec entries { files := [], count := 0, capacity := 10 }).2

theorem found_in_iff (name : String) (l : List String) : found_in name l = true ↔ name ∈ l := by
  induction l with
  | nil => simp [found_in]
  | cons a rest ih =>
    unfold found_in
    by_cases h : name = a
    · simp [h]
    · simp [h, ih]

theorem get_new_files_loop_spec (original_files : FileList) (current : List String)
    (acc : FileList) :
    (get_new_files_loop original_files current acc).files =
      acc.files ++ diff_spec (original_files.files.take original_files.count) current ∧
    (get_new_files_loop original_files current acc).count =
      acc.count + (diff_spec (original_files.files.take original_files.count) current).length := by
  induction current generalizing acc with
  | nil => simp [get_new_files_loop, diff_spec]
  | cons c rest ih =>
    unfold get_new_files_loop
    by_cases h : c ∈ original_files.files.take original_files.count
    · rw [if_pos ((found_in_iff _ _).2 h)]
      simpa [diff_spec, List.filter_cons, h] using ih acc
    · have hf : ¬ (found_in c (original_files.files.take original_files.count) = true) :=
        fun hc => h ((found_in_iff _ _).1 hc)
      rw [if_neg hf]
      have := ih (push_file acc c)
      rw [this.1, this.2, push_file_files, push_file_count]
      simp [diff_spec, List.filter_cons, h]
      omega

theorem new_files_of_spec (original_files current_files : FileList)
    (ho : original_files.wf) (hc : current_files.wf) :
    (new_files_of original_files current_files).files =
      diff_spec original_files.files current_files.files ∧
    (new_files_of original_files current_files).count =
      (diff_spec original_files.files current_files.files).length := by
  have h := get_new_files_loop_spec original_files
    (current_files.files.take current_files.count) { files := [], count := 0, capacity := 10 }
  unfold FileList.wf at ho hc
  rw [ho, hc, List.take_length, List.take_length] at h
  unfold new_files_of
  rw [hc, List.take_length]
  simpa using h

/-! ## Traces -/

theorem update_requests_append (a b : List Event) :
    update_requests (a ++ b) = update_requests a ++ update_requests b := by
  induction a with
  | nil => rfl
  | cons e rest ih => cases e <;> simp [update_requests, ih]

theorem unlinked_names_append (a b : List Event) :
    unlinked_names (a ++ b) = unlinked_names a ++ unlinked_names b := by
  induction a with
  | nil => rfl
  | cons e rest ih => cases e <;> simp [unlinked_names, ih]

theorem pop_dirs_append (a b : List Event) :
    pop_dirs (a ++ b) = pop_dirs a ++ pop_dirs b := by
  induction a with
  | nil => rfl
  | cons e rest ih => cases e <;> simp [pop_dirs, ih]

theorem observers_of_log (l : List (Level × String)) :
    update_requests (l.map (fun x => Event.log x.1 x.2)) = [] ∧
    unlinked_names (l.map (fun x => Event.log x.1 x.2)) = [] ∧
    pop_dirs (l.map (fun x => Event.log x.1 x.2)) = [] := by
  induction l with
  | nil => exact ⟨rfl, rfl, rfl⟩
  | cons x rest ih => simpa [update_requests, unlinked_names, pop_dirs] using ih

/-! ## `cleanup_files` -/

theorem cleanup_loop_spec (names : List String) (w : World) :
    (cleanup_loop names w).fs =
      { cwd := w.fs.cwd.map (fun es => es.filter (fun e => decide (e.d_name ∉ names))) } ∧
    update_requests (cleanup_loop names w).trace = update_requests w.trace ∧
    unlinked_names (cleanup_loop names w).trace = unlinked_names w.trace ++ names ∧
    pop_dirs (cleanup_loop names w).trace = pop_dirs w.trace ∧
    (cleanup_loop names w).pop_calls = w.pop_calls ∧
    (cleanup_loop names w).update_calls = w.update_calls := by
  induction names generalizing w with
  | nil =>
    refine ⟨?_, rfl, by simp [cleanup_loop], rfl, rfl, rfl⟩
    cases w with
    | mk fs t p u =>
      cases fs with
      | mk cwd => cases cwd <;> simp [cleanup_loop]
  | cons n rest ih =>
    unfold cleanup_loop
    obtain ⟨h1, h2, h3, h4, h5, h6⟩ :=
      ih (emit (Event.unlink n)
        { info (snprintf 256 ("Deleting file: " ++ n)) w with
          fs := unlink n (info (snprintf 256 ("Deleting file: " ++ n)) w).fs })
    refine ⟨?_, ?_, ?_, ?_, ?_, ?_⟩
    · rw [h1]
      cases w with
      | mk fs t p u =>
        cases fs with
        | mk cwd =>
          cases cwd with
          | none => simp [emit, info, unlink]
          | some es =>
            simp only [emit, info, unlink, Option.map_some', List.filter_filter]
            congr 2
            apply List.filter_congr
            intro e _
            by_cases hn : e.d_name = n <;> simp [hn]
    · rw [h2]; simp [emit, info, update_requests_append, update_requests]
    · rw [h3]; simp [emit, info, unlinked_names_append, unlinked_names]
    · rw [h4]; simp [emit, info, pop_dirs_append, pop_dirs]
    · rw [h5]; rfl
    · rw [h6]; rfl

theorem get_new_files_spec (original_files : FileList) (es : List DirEntry) :
    ∃ r, get_new_files original_files { cwd := some es } = some r ∧
      r.files = diff_spec original_files.names (snapshot_names es) ∧
      r.count = r.files.length := by
  obtain ⟨cur, hcur, hfiles, hcount⟩ := list_files_some es
  refine ⟨new_files_of original_files cur, by simp [get_new_files, hcur], ?_, ?_⟩
  · have h := get_new_files_loop_spec original_files (cur.files.take cur.count)
      { files := [], count := 0, capacity := 10 }
    rw [hcount, hfiles, List.take_length] at h
    unfold new_files_of
    rw [hcount, hfiles, List.take_length]
    simpa [FileList.names] using h.1
  · have h := get_new_files_loop_spec original_files (cur.files.take cur.count)
      { files := [], count := 0, capacity := 10 }
    unfold new_files_of
    rw [h.1, h.2]
    simp

theorem get_new_files_none (original_files : FileList) (fs : FileSystem) (h : fs.cwd = none) :
    get_new_files original_files fs = none := by
  simp [get_new_files, list_files, h]

theorem get_new_files_names (original_files : FileList) (fs : FileSystem) (r : FileList)
    (h : get_new_files original_files fs = some r) :
    r.names = new_names original_files fs ∧ r.count = (new_names original_files fs).length := by
  cases fs with
  | mk cwd =>
    cases cwd with
    | none => simp [get_new_files_none] at h
    | some es =>
      obtain ⟨r', hr', hfiles, hcount⟩ := get_new_files_spec original_files es
      rw [hr'] at h
      cases h
      simp [FileList.names, new_names, hcount, hfiles]

theorem cleanup_files_eq (original_files : FileList) (w : World) :
    cleanup_files original_files w = cleanup_loop (new_names original_files w.fs) w := by
  unfold cleanup_files
  cases h : get_new_files original_files w.fs with
  | none =>
    have : w.fs.cwd = none := by
      cases hc : w.fs.cwd with
      | none => rfl
      | some es =>
        obtain ⟨r, hr, _⟩ := get_new_files_spec original_files es
        have hfs : w.fs = { cwd := some es } := by cases hw : w.fs; simp_all
        rw [hfs, hr] at h
        cases h
    simp [new_names, this, cleanup_loop]
  | some r =>
    have := (get_new_files_names original_files w.fs r h).1
    simp only [FileList.names] at this
    simp [this]

/-! ## `process_workitem_wrapper` -/

theorem make_file_wrappers_spec (names : List String) (acc : List WorkitemFileWrapper)
    (n : Int) :
    make_file_wrappers names (acc, n) =
      (acc ++ names.map (fun name => { filename := name, id := none, compressed := false }),
       n + (names.length : Int)) := by
  induction names generalizing acc n with
  | nil => simp [make_file_wrappers]
  | cons a rest ih =>
    unfold make_file_wrappers
    rw [ih]
    simp only [List.append_assoc, List.singleton_append, List.map_cons, List.length_cons,
      Nat.cast_add, Nat.cast_one, Prod.mk.injEq, true_and]
    omega

theorem attach_new_files_eq (new_files : Option FileList) (w : World) :
    attach_new_files new_files w =
      (attachments_of new_files, { w with trace := w.trace ++ attach_log new_files }) := by
  cases new_files with
  | none => simp [attach_new_files, attachments_of, attach_log]
  | some l =>
    by_cases h : l.count > 0
    · simp [attach_new_files, attachments_of, attach_log, h, make_file_wrappers_spec,
        FileList.names, info, emit]
    · simp [attach_new_files, attachments_of, attach_log, h]

theorem observers_of_attach_log (new_files : Option FileList) :
    update_requests (attach_log new_files) = [] ∧
    unlinked_names (attach_log new_files) = [] ∧
    pop_dirs (attach_log new_files) = [] := by
  cases new_files with
  | none => exact ⟨rfl, rfl, rfl⟩
  | some l =>
    by_cases h : l.count > 0
    · simp [attach_log, h, update_requests, unlinked_names, pop_dirs]
    · simp [attach_log, h, update_requests, unlinked_names, pop_dirs]

theorem process_workitem_wrapper_spec (exec : Executor) (svc : Service)
    (original_files : FileList) (item : WorkitemWrapper) (w : World) :
    (process_workitem_wrapper exec svc original_files item w).fs = (exec item w.fs).fs ∧
    update_requests (process_workitem_wrapper exec svc original_files item w).trace =
      update_requests w.trace ++ [sent_request original_files item (exec item w.fs).fs] ∧
    unlinked_names (process_workitem_wrapper exec svc original_files item w).trace =
      unlinked_names w.trace ∧
    pop_dirs (process_workitem_wrapper exec svc original_files item w).trace =
      pop_dirs w.trace ∧
    (process_workitem_wrapper exec svc original_files item w).pop_calls = w.pop_calls ∧
    (process_workitem_wrapper exec svc original_files item w).update_calls =
      w.update_calls + 1 := by
  obtain ⟨l1, l2, l3⟩ := observers_of_log (exec item w.fs).log
  obtain ⟨g1, g2, g3⟩ := observers_of_attach_log
    (get_new_files original_files (exec item w.fs).fs)
  simp only [process_workitem_wrapper, set_workitem_state, attach_new_files_eq]
  split
  · split <;>
      simp [info, error, emit, update_requests_append, unlinked_names_append, pop_dirs_append,
        update_requests, unlinked_names, pop_dirs, l1, l2, l3, g1, g2, g3, sent_request]
  · simp [info, error, emit, update_requests_append, unlinked_names_append, pop_dirs_append,
      update_requests, unlinked_names, pop_dirs, l1, l2, l3, g1, g2, g3, sent_request]

/-! ## The drain loop -/

theorem drain_loop_item (exec : Executor) (svc : Service) (pop_req : PopWorkitemRequestWrapper)
    (original_files : FileList) (fuel : Nat) (w : World) (counter : Nat)
    (item : WorkitemWrapper) (h : svc.pop w.pop_calls = item_answer item) :
    drain_loop exec svc pop_req original_files (fuel + 1) w counter =
      drain_loop exec svc pop_req original_files fuel
        (drain_step exec svc pop_req original_files item w) (counter + 1) := by
  have h' : svc.pop (info "Popping workitem from queue" w).pop_calls =
      some { success := true, workitem := some item } := h
  rw [drain_loop]
  simp only [h']
  rfl

theorem drain_loop_end (exec : Executor) (svc : Service) (pop_req : PopWorkitemRequestWrapper)
    (original_files : FileList) (fuel : Nat) (w : World) (counter : Nat)
    (h : carries_item (svc.pop w.pop_calls) = false) :
    drain_loop exec svc pop_req original_files (fuel + 1) w counter =
      some (info "No more workitems in queue or error occurred" (after_pop pop_req w),
        counter) := by
  have h' : carries_item (svc.pop (info "Popping workitem from queue" w).pop_calls) = false := h
  rw [drain_loop]
  split
  · rename_i heq
    rw [heq] at h'
    simp [carries_item] at h'
  · rfl

theorem drain_step_spec (exec : Executor) (svc : Service) (pop_req : PopWorkitemRequestWrapper)
    (original_files : FileList) (item : WorkitemWrapper) (w : World) :
    (drain_step exec svc pop_req original_files item w).fs =
      { cwd := (exec item w.fs).fs.cwd.map (fun es => es.filter (fun e =>
          decide (e.d_name ∉ new_names original_files (exec item w.fs).fs))) } ∧
    update_requests (drain_step exec svc pop_req original_files item w).trace =
      update_requests w.trace ++ [sent_request original_files item (exec item w.fs).fs] ∧
    unlinked_names (drain_step exec svc pop_req original_files item w).trace =
      unlinked_names w.trace ++ new_names original_files (exec item w.fs).fs ∧
    pop_dirs (drain_step exec svc pop_req original_files item w).trace =
      pop_dirs w.trace ++ [w.fs] ∧
    (drain_step exec svc pop_req original_files item w).pop_calls = w.pop_calls + 1 ∧
    (drain_step exec svc pop_req original_files item w).update_calls = w.update_calls + 1 := by
  unfold drain_step
  rw [cleanup_files_eq]
  obtain ⟨p1, p2, p3, p4, p5, p6⟩ := process_workitem_wrapper_spec exec svc original_files item
    (info "Workitem popped successfully" (after_pop pop_req w))
  have hfs : (info "Workitem popped successfully" (after_pop pop_req w)).fs = w.fs := rfl
  obtain ⟨c1, c2, c3, c4, c5, c6⟩ := cleanup_loop_spec
    (new_names original_files (process_workitem_wrapper exec svc original_files item
      (info "Workitem popped successfully" (after_pop pop_req w))).fs)
    (process_workitem_wrapper exec svc original_files item
      (info "Workitem popped successfully" (after_pop pop_req w)))
  rw [hfs] at p1 p2
  rw [p1] at c1 c2 c3 c4 c5 c6
  rw [p1]
  refine ⟨c1, ?_, ?_, ?_, ?_, ?_⟩
  · rw [c2, p2]
    simp [info, emit, after_pop, update_requests_append, update_requests]
  · rw [c3, p3]
    simp [info, emit, after_pop, unlinked_names_append, unlinked_names]
  · rw [c4, p4]
    simp [info, emit, after_pop, pop_dirs_append, pop_dirs]
  · rw [c5, p5]; rfl
  · rw [c6, p6]; rfl

theorem pop_answers_succ (svc : Service) (start n : Nat) :
    pop_answers svc start (n + 1) = svc.pop start :: pop_answers svc (start + 1) n := by
  unfold pop_answers
  rw [List.range_succ_eq_map]
  simp only [List.map_cons, List.map_map, Nat.add_zero, List.cons.injEq, true_and]
  apply List.map_congr_left
  intro i _
  simp only [Function.comp, Nat.succ_eq_add_one]
  congr 1
  omega

theorem drain_loop_eq_run (exec : Executor) (svc : Service) (pop_req : PopWorkitemRequestWrapper)
    (original_files : FileList) (items : List WorkitemWrapper) :
    ∀ (w : World) (counter fuel : Nat),
      pop_answers svc w.pop_calls items.length = items.map item_answer →
      carries_item (svc.pop (w.pop_calls + items.length)) = false →
      items.length < fuel →
      drain_loop exec svc pop_req original_files fuel w counter =
        some (drain_run exec svc pop_req original_files items w, counter + items.length) := by
  induction items with
  | nil =>
    intro w counter fuel _ hend hfuel
    obtain ⟨fuel, rfl⟩ : ∃ k, fuel = k + 1 := ⟨fuel - 1, by simp at hfuel; omega⟩
    simpa [drain_run] using
      drain_loop_end exec svc pop_req original_files fuel w counter (by simpa using hend)
  | cons item rest ih =>
    intro w counter fuel hpops hend hfuel
    obtain ⟨fuel, rfl⟩ : ∃ k, fuel = k + 1 := ⟨fuel - 1, by simp at hfuel; omega⟩
    simp only [List.length_cons, pop_answers_succ, List.map_cons, List.cons.injEq] at hpops
    have hstep := (drain_step_spec exec svc pop_req original_files item w).2.2.2.2.1
    rw [drain_loop_item exec svc pop_req original_files fuel w counter item hpops.1]
    rw [ih (drain_step exec svc pop_req original_files item w) (counter + 1) fuel
      (by rw [hstep]; exact hpops.2)
      (by rw [hstep]; simpa [Nat.add_assoc, Nat.add_comm 1] using hend)
      (by simpa using hfuel)]
    simp only [drain_run, List.foldl_cons, List.length_cons, Option.some.injEq, Prod.mk.injEq,
      true_and]
    omega

theorem queue_event_callback_eq_run (exec : Executor) (svc : Service)
    (wiq_env : Option String) (fuel : Nat) (w : World) (original_files : FileList)
    (items : List WorkitemWrapper)
    (hsnap : list_files w.fs = some original_files)
    (hpops : pop_answers svc w.pop_calls items.length = items.map item_answer)
    (hend : carries_item (svc.pop (w.pop_calls + items.length)) = false)
    (hfuel : items.length < fuel) :
    queue_event_callback_with exec svc wiq_env fuel w =
      some (callback_run exec svc wiq_env original_files items w) := by
  have hsnap' : list_files (info "Queue event received" w).fs = some original_files := hsnap
  have hrun := drain_loop_eq_run exec svc
    { wiq := wiq_of wiq_env, wiqid := none, request_id := 1 } original_files items
    (info "Queue event received" w) 0 fuel hpops hend hfuel
  unfold queue_event_callback_with
  simp only [hsnap']
  simp only [hrun, Nat.zero_add]
  rfl

theorem foldl_drain_step_updates (exec : Executor) (svc : Service)
    (pop_req : PopWorkitemRequestWrapper) (original_files : FileList)
    (items : List WorkitemWrapper) :
    ∀ w : World,
      updated_items (items.foldl (fun w item =>
        drain_step exec svc pop_req original_files item w) w).trace =
        updated_items w.trace ++ items.map reported := by
  induction items with
  | nil => intro w; simp
  | cons item rest ih =>
    intro w
    rw [List.foldl_cons, ih]
    have h := (drain_step_spec exec svc pop_req original_files item w).2.1
    simp only [updated_items] at *
    rw [h]
    simp [sent_request, reported]

theorem cleanup_files_observers (original_files : FileList) (w : World) :
    update_requests (cleanup_files original_files w).trace = update_requests w.trace ∧
    pop_dirs (cleanup_files original_files w).trace = pop_dirs w.trace ∧
    unlinked_names (cleanup_files original_files w).trace =
      unlinked_names w.trace ++ new_names original_files w.fs ∧
    (cleanup_files original_files w).fs =
      { cwd := w.fs.cwd.map (fun es => es.filter (fun e =>
          decide (e.d_name ∉ new_names original_files w.fs))) } := by
  rw [cleanup_files_eq]
  obtain ⟨c1, c2, c3, c4, _, _⟩ := cleanup_loop_spec (new_names original_files w.fs) w
  exact ⟨c2, c4, c3, c1⟩

theorem summary_log_observers (wiq : String) (counter : Nat) (w : World) :
    (summary_log wiq counter w).fs = w.fs ∧
    update_requests (summary_log wiq counter w).trace = update_requests w.trace ∧
    pop_dirs (summary_log wiq counter w).trace = pop_dirs w.trace ∧
    unlinked_names (summary_log wiq counter w).trace = unlinked_names w.trace := by
  unfold summary_log
  split <;>
    simp [info, emit, update_requests_append, pop_dirs_append, unlinked_names_append,
      update_requests, pop_dirs, unlinked_names]

theorem callback_run_updates (exec : Executor) (svc : Service) (wiq_env : Option String)
    (original_files : FileList) (items : List WorkitemWrapper) (w : World) :
    updated_items (callback_run exec svc wiq_env original_files items w).trace =
      updated_items w.trace ++ items.map reported := by
  unfold callback_run
  have hf := foldl_drain_step_updates exec svc
    { wiq := wiq_of wiq_env, wiqid := none, request_id := 1 } original_files items
    (info "Queue event received" w)
  simp only [updated_items] at *
  rw [(cleanup_files_observers _ _).1, (summary_log_observers _ _ _).2.1]
  simp only [drain_run, info, emit, after_pop, update_requests_append, update_requests,
    List.append_nil] at *
  rw [hf]

/-! ## Restoring the directory -/

theorem list_files_names (fs : FileSystem) (original_files : FileList)
    (h : list_files fs = some original_files) :
    ∃ es, fs.cwd = some es ∧ original_files.names = snapshot_names es := by
  cases fs with
  | mk cwd =>
    cases cwd with
    | none => simp [list_files] at h
    | some es =>
      obtain ⟨r, hr, hfiles, hcount⟩ := list_files_some es
      rw [hr] at h
      cases h
      exact ⟨es, rfl, by simp [FileList.names, hcount, hfiles]⟩

theorem mem_diff_spec (before after : List String) (name : String) :
    name ∈ diff_spec before after ↔ name ∈ after ∧ name ∉ before := by
  simp [diff_spec]

theorem mem_snapshot_names (es : List DirEntry) (name : String) :
    name ∈ snapshot_names es ↔ ∃ e ∈ es, is_listed e = true ∧ e.d_name = name := by
  simp [snapshot_names, and_assoc]

theorem snapshot_names_subset (es : List DirEntry) (name : String)
    (h : name ∈ snapshot_names es) : name ∈ entry_names es := by
  obtain ⟨e, he, _, hn⟩ := (mem_snapshot_names es name).1 h
  exact List.mem_map.2 ⟨e, he, hn⟩

theorem only_adds_files_refl (fs : FileSystem) : only_adds_files fs fs := by
  cases fs with
  | mk cwd =>
    cases cwd with
    | none => simp [only_adds_files]
    | some es =>
      simp only [only_adds_files]
      refine ⟨?_, ?_⟩
      · rw [List.filter_eq_self]
        intro e he
        simpa [entry_names] using ⟨e, he, rfl⟩
      · intro e he hne
        exact absurd (List.mem_map.2 ⟨e, he, rfl⟩) hne

theorem cleanup_restores (original_files : FileList) (fs fs' : FileSystem)
    (hsnap : list_files fs = some original_files) (hadds : only_adds_files fs fs') :
    ({ cwd := fs'.cwd.map (fun es => es.filter (fun e =>
        decide (e.d_name ∉ new_names original_files fs'))) } : FileSystem) = fs := by
  obtain ⟨es0, hcwd, hnames⟩ := list_files_names fs original_files hsnap
  cases fs with
  | mk cwd =>
    cases fs' with
    | mk cwd' =>
      simp only at hcwd
      subst hcwd
      cases cwd' with
      | none => simp [only_adds_files] at hadds
      | some es =>
        simp only [only_adds_files] at hadds
        obtain ⟨hkeep, hextra⟩ := hadds
        simp only [Option.map_some', new_names, hnames]
        congr 2
        conv_rhs => rw [← hkeep]
        apply List.filter_congr
        intro e he
        by_cases hold : e.d_name ∈ entry_names es0
        · have hnot : e.d_name ∉ diff_spec (snapshot_names es0) (snapshot_names es) := by
            intro hmem
            obtain ⟨hin, hout⟩ := (mem_diff_spec _ _ _).1 hmem
            obtain ⟨e', he', hl', hn'⟩ := (mem_snapshot_names es _).1 hin
            have hmem' : e' ∈ es.filter (fun e => decide (e.d_name ∈ entry_names es0)) := by
              rw [List.mem_filter]
              exact ⟨he', by simpa [hn'] using hold⟩
            rw [hkeep] at hmem'
            exact hout ((mem_snapshot_names es0 _).2 ⟨e', hmem', hl', hn'⟩)
          simp [hold, hnot]
        · have hreg := hextra e he hold
          have hl : is_listed e = true := by
            simp only [is_regular_file, Bool.and_eq_true] at hreg
            exact hreg.2
          have hin : e.d_name ∈ diff_spec (snapshot_names es0) (snapshot_names es) := by
            rw [mem_diff_spec]
            exact ⟨(mem_snapshot_names es _).2 ⟨e, he, hl, rfl⟩,
              fun h => hold (snapshot_names_subset es0 _ h)⟩
          simp [hold, hin]

theorem foldl_drain_step_restores (exec : Executor) (svc : Service)
    (pop_req : PopWorkitemRequestWrapper) (original_files : FileList)
    (items : List WorkitemWrapper) :
    ∀ w : World, list_files w.fs = some original_files →
      (∀ item ∈ items, only_adds_files w.fs (exec item w.fs).fs) →
      (items.foldl (fun w item =>
        drain_step exec svc pop_req original_files item w) w).fs = w.fs ∧
      pop_dirs (items.foldl (fun w item =>
        drain_step exec svc pop_req original_files item w) w).trace =
        pop_dirs w.trace ++ List.replicate items.length w.fs := by
  induction items with
  | nil => intro w _ _; simp
  | cons item rest ih =>
    intro w hsnap hadds
    obtain ⟨s1, _, _, s4, _, _⟩ := drain_step_spec exec svc pop_req original_files item w
    have hfs : (drain_step exec svc pop_req original_files item w).fs = w.fs := by
      rw [s1]
      exact cleanup_restores original_files w.fs _ hsnap (hadds item (List.mem_cons_self _ _))
    obtain ⟨r1, r2⟩ := ih (drain_step exec svc pop_req original_files item w)
      (by rw [hfs]; exact hsnap)
      (by
        intro it hit
        rw [hfs]
        exact hadds it (List.mem_cons_of_mem _ hit))
    rw [List.foldl_cons]
    refine ⟨by rw [r1, hfs], ?_⟩
    rw [r2, s4, hfs]
    simp [List.replicate_succ]

theorem callback_run_restores (exec : Executor) (svc : Service) (wiq_env : Option String)
    (original_files : FileList) (items : List WorkitemWrapper) (w : World)
    (hsnap : list_files w.fs = some original_files)
    (hadds : ∀ item ∈ items, only_adds_files w.fs (exec item w.fs).fs) :
    (callback_run exec svc wiq_env original_files items w).fs = w.fs ∧
    pop_dirs (callback_run exec svc wiq_env original_files items w).trace =
      pop_dirs w.trace ++ List.replicate (items.length + 1) w.fs := by
  obtain ⟨r1, r2⟩ := foldl_drain_step_restores exec svc
    { wiq := wiq_of wiq_env, wiqid := none, request_id := 1 } original_files items
    (info "Queue event received" w) hsnap hadds
  have hinfo : (info "Queue event received" w).fs = w.fs := rfl
  have htr : pop_dirs (info "Queue event received" w).trace = pop_dirs w.trace := by
    simp [info, emit, pop_dirs_append, pop_dirs]
  rw [hinfo] at r1 r2
  rw [htr] at r2
  unfold callback_run
  obtain ⟨_, c2, _, c4⟩ := cleanup_files_observers original_files
    (summary_log (wiq_of wiq_env) items.length
      (drain_run exec svc { wiq := wiq_of wiq_env, wiqid := none, request_id := 1 }
        original_files items (info "Queue event received" w)))
  obtain ⟨g1, _, g3, _⟩ := summary_log_observers (wiq_of wiq_env) items.length
    (drain_run exec svc { wiq := wiq_of wiq_env, wiqid := none, request_id := 1 }
      original_files items (info "Queue event received" w))
  have hrunfs : (drain_run exec svc { wiq := wiq_of wiq_env, wiqid := none, request_id := 1 }
      original_files items (info "Queue event received" w)).fs = w.fs := by
    simp only [drain_run, info, emit, after_pop] at *
    exact r1
  have hrundirs : pop_dirs (drain_run exec svc
      { wiq := wiq_of wiq_env, wiqid := none, request_id := 1 }
      original_files items (info "Queue event received" w)).trace =
      pop_dirs w.trace ++ List.replicate (items.length + 1) w.fs := by
    simp only [drain_run, info, emit, after_pop, pop_dirs_append, pop_dirs, List.append_nil] at *
    rw [r2, r1, List.replicate_succ', List.append_assoc]
  refine ⟨?_, ?_⟩
  · rw [c4, g1, hrunfs]
    exact cleanup_restores original_files w.fs w.fs hsnap (only_adds_files_refl w.fs)
  · rw [c2, g3, hrundirs]

theorem new_names_after_cleanup (original_files : FileList) (fs : FileSystem) :
    new_names original_files
      { cwd := fs.cwd.map (fun es => es.filter (fun e =>
          decide (e.d_name ∉ new_names original_files fs))) } = [] := by
  cases fs with
  | mk cwd =>
    cases cwd with
    | none => simp [new_names]
    | some es =>
      simp only [new_names, Option.map_some']
      rw [diff_spec, List.filter_eq_nil_iff]
      intro name hname
      obtain ⟨e, he, hl, hn⟩ := (mem_snapshot_names _ _).1 hname
      rw [List.mem_filter] at he
      have hnot : e.d_name ∉ diff_spec original_files.names (snapshot_names es) := by
        simpa using he.2
      rw [mem_diff_spec] at hnot
      have hin : e.d_name ∈ snapshot_names es := (mem_snapshot_names _ _).2 ⟨e, he.1, hl, rfl⟩
      have : e.d_name ∈ original_files.names := by
        by_contra hc
        exact hnot ⟨hin, hc⟩
      simpa [hn] using this

theorem cleanup_files_twice (original_files : FileList) (w : World) :
    cleanup_files original_files (cleanup_files original_files w) =
      cleanup_files original_files w := by
  rw [cleanup_files_eq original_files (cleanup_files original_files w)]
  rw [(cleanup_files_observers original_files w).2.2.2, new_names_after_cleanup]
  rfl

/-! ## Sweeping up after `fopen` -/

theorem only_creates_files_refl (fs : FileSystem) : only_creates_files fs fs := by
  cases fs with
  | mk cwd =>
    cases cwd with
    | none => simp [only_creates_files]
    | some es =>
      simp only [only_creates_files]
      exact ⟨fun e he _ => he, fun e he => Or.inl he⟩

theorem sweep_keeps_initial (original_files : FileList) (initial old new : List DirEntry)
    (hnames : original_files.names = snapshot_names initial)
    (hsub : ∀ e ∈ old, e ∈ initial)
    (hkeep : ∀ e ∈ initial, is_listed e = true → e ∈ old)
    (hcreate : only_creates_files { cwd := some old } { cwd := some new }) :
    (∀ e ∈ new.filter (fun e =>
        decide (e.d_name ∉ new_names original_files { cwd := some new })), e ∈ initial) ∧
    (∀ e ∈ initial, is_listed e = true → e ∈ new.filter (fun e =>
        decide (e.d_name ∉ new_names original_files { cwd := some new }))) := by
  simp only [only_creates_files] at hcreate
  obtain ⟨hstay, hnew⟩ := hcreate
  simp only [new_names, hnames]
  refine ⟨?_, ?_⟩
  · intro e he
    rw [List.mem_filter] at he
    obtain ⟨hmem, hnot⟩ := he
    simp only [decide_eq_true_eq] at hnot
    rcases hnew e hmem with hold | ⟨hl, hfresh⟩
    · exact hsub e hold
    · exfalso
      have hin : e.d_name ∈ snapshot_names new := (mem_snapshot_names _ _).2 ⟨e, hmem, hl, rfl⟩
      have horig : e.d_name ∈ snapshot_names initial := by
        by_contra hc
        exact hnot ((mem_diff_spec _ _ _).2 ⟨hin, hc⟩)
      obtain ⟨e0, he0, hl0, hn0⟩ := (mem_snapshot_names _ _).1 horig
      exact hfresh ((mem_snapshot_names _ _).2 ⟨e0, hkeep e0 he0 hl0, hl0, hn0⟩)
  · intro e he hl
    rw [List.mem_filter]
    refine ⟨hstay e (hkeep e he hl) hl, ?_⟩
    simp only [decide_eq_true_eq]
    intro hmem
    exact ((mem_diff_spec _ _ _).1 hmem).2 ((mem_snapshot_names _ _).2 ⟨e, he, hl, rfl⟩)

theorem foldl_drain_step_sweeps (exec : Executor) (svc : Service)
    (pop_req : PopWorkitemRequestWrapper) (original_files : FileList)
    (initial : List DirEntry) (hnames : original_files.names = snapshot_names initial)
    (hexec : ∀ item fs, only_creates_files fs (exec item fs).fs)
    (items : List WorkitemWrapper) :
    ∀ (w : World) (old : List DirEntry), w.fs.cwd = some old →
      (∀ e ∈ old, e ∈ initial) → (∀ e ∈ initial, is_listed e = true → e ∈ old) →
      ∃ cur, (items.foldl (fun w item =>
          drain_step exec svc pop_req original_files item w) w).fs.cwd = some cur ∧
        (∀ e ∈ cur, e ∈ initial) ∧ (∀ e ∈ initial, is_listed e = true → e ∈ cur) := by
  induction items with
  | nil => intro w old hcwd hsub hkeep; exact ⟨old, hcwd, hsub, hkeep⟩
  | cons item rest ih =>
    intro w old hcwd hsub hkeep
    have hfs : w.fs = { cwd := some old } := by
      cases hw : w.fs
      simp_all
    have hc := hexec item w.fs
    rw [hfs] at hc
    cases hx : (exec item { cwd := some old }).fs with
    | mk cwd' =>
      rw [hx] at hc
      cases cwd' with
      | none => simp [only_creates_files] at hc
      | some new =>
        obtain ⟨s1, s2⟩ := sweep_keeps_initial original_files initial old new hnames hsub
          hkeep hc
        have hstep := (drain_step_spec exec svc pop_req original_files item w).1
        rw [hfs, hx] at hstep
        rw [List.foldl_cons]
        exact ih (drain_step exec svc pop_req original_files item w) _
          (by rw [hstep]; rfl) s1 s2

theorem callback_run_sweeps (exec : Executor) (svc : Service) (wiq_env : Option String)
    (original_files : FileList) (items : List WorkitemWrapper) (w : World)
    (hsnap : list_files w.fs = some original_files)
    (hexec : ∀ item fs, only_creates_files fs (exec item fs).fs) :
    ∃ es es', w.fs.cwd = some es ∧
      (callback_run exec svc wiq_env original_files items w).fs.cwd = some es' ∧
      (∀ e ∈ es', e ∈ es) ∧ (∀ e ∈ es, is_listed e = true → e ∈ es') := by
  obtain ⟨es, hcwd, hnames⟩ := list_files_names w.fs original_files hsnap
  obtain ⟨cur, hcur, hsub, hkeep⟩ := foldl_drain_step_sweeps exec svc
    { wiq := wiq_of wiq_env, wiqid := none, request_id := 1 } original_files es hnames hexec
    items (info "Queue event received" w) es hcwd (fun e he => he) (fun e he _ => he)
  have hrunfs : (drain_run exec svc { wiq := wiq_of wiq_env, wiqid := none, request_id := 1 }
      original_files items (info "Queue event received" w)).fs = { cwd := some cur } := by
    simp only [drain_run, info, emit, after_pop] at *
    cases hf : (List.foldl (fun w item => drain_step exec svc
      { wiq := wiq_of wiq_env, wiqid := none, request_id := 1 } original_files item w)
      { fs := w.fs, trace := w.trace ++ [Event.log Level.info "Queue event received"],
        pop_calls := w.pop_calls, update_calls := w.update_calls } items).fs
    simp_all
  obtain ⟨s1, s2⟩ := sweep_keeps_initial original_files es cur cur hnames hsub hkeep
    (only_creates_files_refl _)
  refine ⟨es, _, hcwd, ?_, s1, s2⟩
  unfold callback_run
  rw [(cleanup_files_observers _ _).2.2.2, (summary_log_observers _ _ _).1, hrunfs]
  rfl

theorem process_workitem_only_creates (fopen : Fopen)
    (hfopen : ∀ fs fs', fopen "hello.txt" fs = some fs' → only_creates_files fs fs')
    (item : WorkitemWrapper) (fs : FileSystem) :
    only_creates_files fs (process_workitem fopen item fs).fs := by
  unfold process_workitem
  cases h : fopen "hello.txt" fs with
  | none => exact only_creates_files_refl fs
  | some fs' => exact hfopen fs fs' h

theorem sample_fopen_only_creates (name : String) (hname : name ≠ "." ∧ name ≠ "..")
    (fs fs' : FileSystem) (h : sample_fopen name fs = some fs') :
    only_creates_files fs fs' := by
  cases fs with
  | mk cwd =>
    cases cwd with
    | none => simp [sample_fopen] at h
    | some es =>
      simp only [sample_fopen] at h
      split at h
      · cases h
      · rename_i hfree
        simp only [Option.some.injEq] at h
        subst h
        simp only [only_creates_files]
        refine ⟨fun e he _ => List.mem_append_left _ he, ?_⟩
        intro e he
        rcases List.mem_append.1 he with he | he
        · exact Or.inl he
        · simp only [List.mem_singleton] at he
          subst he
          refine Or.inr ⟨by simp [is_listed, hname.1, hname.2], ?_⟩
          exact fun hmem => hfree (snapshot_names_subset es _ hmem)

theorem link_following_fopen_only_creates (fs fs' : FileSystem)
    (h : link_following_fopen "hello.txt" fs = some fs') : only_creates_files fs fs' := by
  unfold link_following_fopen at h
  by_cases hfs : fs = linked_fs
  · rw [if_pos ⟨rfl, hfs⟩] at h
    cases h
    rw [hfs]
    decide
  · rw [if_neg (fun hc => hfs hc.2)] at h
    exact sample_fopen_only_creates "hello.txt" (by decide) fs fs' h

/-! ## The claims -/

/-- C3: the list built by the double loop of `get_new_files` from the current listing `after`
and the original listing `before` is `after` filtered by "the name is not equal to any element
of `before`", in the order and with the multiplicity of `after`; `count` is its length. -/
theorem get_new_files_is_diff (before after : List String) (cap_before cap_after : Nat) :
    (new_files_of { files := before, count := before.length, capacity := cap_before }
        { files := after, count := after.length, capacity := cap_after }).files =
      after.filter (fun name => decide (name ∉ before)) ∧
    (new_files_of { files := before, count := before.length, capacity := cap_before }
        { files := after, count := after.length, capacity := cap_after }).count =
      (after.filter (fun name => decide (name ∉ before))).length := by
  have h := new_files_of_spec
    { files := before, count := before.length, capacity := cap_before }
    { files := after, count := after.length, capacity := cap_after } rfl rfl
  simpa [diff_spec] using h

/-- C8: the diff of a snapshot against itself is empty.  For every name list `s` the double
loop of `get_new_files` with original `s` and current listing `s` yields count 0, and
`get_new_files` called with the snapshot `list_files` has just taken of the same directory
returns a list of count 0. -/
theorem diff_of_same_snapshot_is_empty (s : List String) (cap_original cap_current : Nat)
    (fs : FileSystem) (snapshot : FileList) (hsnap : list_files fs = some snapshot) :
    (new_files_of { files := s, count := s.length, capacity := cap_original }
        { files := s, count := s.length, capacity := cap_current }).count = 0 ∧
    (new_files_of { files := s, count := s.length, capacity := cap_original }
        { files := s, count := s.length, capacity := cap_current }).files = [] ∧
    ∃ r, get_new_files snapshot fs = some r ∧ r.count = 0 ∧ r.files = [] := by
  have h := new_files_of_spec
    { files := s, count := s.length, capacity := cap_original }
    { files := s, count := s.length, capacity := cap_current } rfl rfl
  have hself : ∀ l : List String, diff_spec l l = [] := by
    intro l
    simp [diff_spec, List.filter_eq_nil_iff]
  simp only [hself] at h
  refine ⟨by simpa using h.2, h.1, ?_⟩
  obtain ⟨es, hcwd, hnames⟩ := list_files_names fs snapshot hsnap
  have hfs : fs = { cwd := some es } := by
    cases fs
    simp_all
  obtain ⟨r, hr, hfiles, hcount⟩ := get_new_files_spec snapshot es
  rw [hnames, hself] at hfiles
  refine ⟨r, by rw [hfs]; exact hr, ?_, hfiles⟩
  rw [hcount, hfiles]
  rfl

/-- C8, at a concrete input: a list with a repeated name, and the snapshot of `sample_fs`. -/
theorem diff_of_same_snapshot_is_empty_witness :
    list_files sample_fs = some sample_snapshot ∧
    (new_files_of { files := ["a", "b", "a"], count := 3, capacity := 10 }
        { files := ["a", "b", "a"], count := 3, capacity := 10 }).count = 0 ∧
    ∃ r, get_new_files sample_snapshot sample_fs = some r ∧ r.count = 0 ∧ r.files = [] :=
  ⟨by decide,
   (diff_of_same_snapshot_is_empty ["a", "b", "a"] 10 10 sample_fs sample_snapshot
      (by decide)).1,
   (diff_of_same_snapshot_is_empty ["a", "b", "a"] 10 10 sample_fs sample_snapshot
      (by decide)).2.2⟩

/-- C6, refuted as stated: `sample_dir` holds the symbolic link `latest`, and the snapshot of
`sample_fs` contains its name. -/
theorem snapshot_includes_symlink :
    ∃ e ∈ sample_dir, e.is_symlink = true ∧
      ∃ r, list_files sample_fs = some r ∧ e.d_name ∈ r.files :=
  ⟨{ d_name := "latest", is_symlink := true, st := some FileKind.regular }, by decide, rfl,
    sample_snapshot, by decide, by decide⟩

/-- C6, amended: for every directory content `list_files` succeeds and returns exactly the
names, other than `"."` and `".."`, of the entries for which `stat` succeeds and reports a
regular file, once each and in enumeration order.  Entries whose `stat` fails are skipped
without failing the snapshot; directories and special files are left out; a symbolic link is
left out only when it does not resolve to a regular file. -/
theorem list_files_keeps_stat_regular (entries : List DirEntry) :
    ∃ r, list_files { cwd := some entries } = some r ∧
      r.files = (entries.filter (fun e => decide (e.d_name ≠ "." ∧ e.d_name ≠ ".." ∧
        e.st = some FileKind.regular))).map (fun e => e.d_name) ∧
      r.count = r.files.length := by
  obtain ⟨r, hr, hfiles, hcount⟩ := list_files_some entries
  refine ⟨r, hr, ?_, by rw [hcount, hfiles]⟩
  rw [hfiles, snapshot_names]
  congr 1
  apply List.filter_congr
  intro e _
  by_cases h1 : e.d_name = "." <;> by_cases h2 : e.d_name = ".." <;>
    by_cases h3 : e.st = some FileKind.regular <;> simp [is_listed, h1, h2, h3]

/-- C7: when the initial `list_files` returns `NULL`, `queue_event_callback` returns after
logging "Queue event received" and the error "Failed to list files": the trace gains these two
lines only (no `pop_workitem`, no `update_workitem`, no `unlink`), and the directory and the
call counters are untouched, whatever the fuel. -/
theorem failed_snapshot_aborts_cycle (exec : Executor) (svc : Service)
    (wiq_env : Option String) (fuel : Nat) (w : World) (h : list_files w.fs = none) :
    ∃ w', queue_event_callback_with exec svc wiq_env fuel w = some w' ∧
      w'.trace = w.trace ++ [Event.log Level.info "Queue event received",
        Event.log Level.error "Failed to list files"] ∧
      w'.fs = w.fs ∧ w'.pop_calls = w.pop_calls ∧ w'.update_calls = w.update_calls ∧
      pop_dirs w'.trace = pop_dirs w.trace ∧
      update_requests w'.trace = update_requests w.trace ∧
      unlinked_names w'.trace = unlinked_names w.trace := by
  have h' : list_files (info "Queue event received" w).fs = none := h
  refine ⟨error "Failed to list files" (info "Queue event received" w), ?_, ?_, rfl, rfl, rfl,
    ?_, ?_, ?_⟩
  · unfold queue_event_callback_with
    simp only [h']
  · simp [error, info, emit]
  · simp [error, info, emit, pop_dirs_append, pop_dirs]
  · simp [error, info, emit, update_requests_append, update_requests]
  · simp [error, info, emit, unlinked_names_append, unlinked_names]

/-- C7, at a concrete input: a working directory that cannot be opened. -/
theorem failed_snapshot_aborts_cycle_witness :
    list_files closed_world.fs = none ∧
    ∃ w', queue_event_callback sample_fopen sample_service none 5 closed_world = some w' ∧
      w'.trace = [Event.log Level.info "Queue event received",
        Event.log Level.error "Failed to list files"] ∧
      w'.pop_calls = 0 ∧ w'.update_calls = 0 := by
  have h := failed_snapshot_aborts_cycle (process_workitem sample_fopen) sample_service none 5
    closed_world
    (by decide)
  obtain ⟨w', h1, h2, _, h4, h5, _⟩ := h
  exact ⟨by decide, w', h1, h2, h4, h5⟩

/-- C10: `cleanup_files` unlinks only names that the original list does not hold, every entry
named in the original list that is in the directory before the call is still there after it,
and a second call right after the first changes nothing: no `unlink`, no log line. -/
theorem cleanup_files_spares_original (original_files : FileList) (w : World) :
    (∃ names, unlinked_names (cleanup_files original_files w).trace =
        unlinked_names w.trace ++ names ∧
      ∀ name ∈ names, name ∉ original_files.names) ∧
    (∀ es, w.fs.cwd = some es →
      ∃ es', (cleanup_files original_files w).fs.cwd = some es' ∧
        ∀ e ∈ es, e.d_name ∈ original_files.names → e ∈ es') ∧
    cleanup_files original_files (cleanup_files original_files w) =
      cleanup_files original_files w := by
  obtain ⟨_, _, c3, c4⟩ := cleanup_files_observers original_files w
  refine ⟨⟨new_names original_files w.fs, c3, ?_⟩, ?_, cleanup_files_twice original_files w⟩
  · intro name hname
    unfold new_names at hname
    split at hname
    · cases hname
    · exact ((mem_diff_spec _ _ _).1 hname).2
  · intro es hes
    rw [c4, hes]
    refine ⟨_, rfl, ?_⟩
    intro e he horig
    rw [List.mem_filter]
    refine ⟨he, ?_⟩
    simp only [new_names, hes, decide_eq_true_eq]
    intro hmem
    exact ((mem_diff_spec _ _ _).1 hmem).2 horig

/-- C10, at a concrete input: the leftover `hello.txt` is the only name unlinked, the entries
of the snapshot stay, and the second call changes nothing. -/
theorem cleanup_files_spares_original_witness :
    unlinked_names (cleanup_files sample_snapshot littered_world).trace = ["hello.txt"] ∧
    (cleanup_files sample_snapshot littered_world).fs = sample_fs ∧
    cleanup_files sample_snapshot (cleanup_files sample_snapshot littered_world) =
      cleanup_files sample_snapshot littered_world :=
  ⟨by decide, by decide,
    (cleanup_files_spares_original sample_snapshot littered_world).2.2⟩

/-- C1: when the initial snapshot succeeds and the service hands out the items `items` before
its first empty or failed answer, `queue_event_callback` returns (any fuel above the number of
items is enough) and has made exactly one `update_workitem` call per popped item, in pop
order, each carrying that item; this holds for every processing function, whatever the update
calls answer and however many new files were found. -/
theorem one_update_per_popped_item (exec : Executor) (svc : Service) (wiq_env : Option String)
    (w : World) (items : List WorkitemWrapper) (fuel : Nat)
    (hsnap : (list_files w.fs).isSome = true)
    (hpops : pop_answers svc w.pop_calls items.length = items.map item_answer)
    (hend : carries_item (svc.pop (w.pop_calls + items.length)) = false)
    (hfuel : items.length < fuel) :
    ∃ w', queue_event_callback_with exec svc wiq_env fuel w = some w' ∧
      updated_items w'.trace =
        updated_items w.trace ++ items.map (fun item => { item with state := "successful" }) ∧
      (update_requests w'.trace).length = (update_requests w.trace).length + items.length := by
  obtain ⟨original_files, hsome⟩ := Option.isSome_iff_exists.1 hsnap
  have hrun := queue_event_callback_eq_run exec svc wiq_env fuel w original_files items hsome
    hpops hend hfuel
  have hupd := callback_run_updates exec svc wiq_env original_files items w
  refine ⟨_, hrun, hupd, ?_⟩
  have hlen := congrArg List.length hupd
  simpa [updated_items] using hlen

/-- C1, at a concrete input: three items are popped in `sample_fs`, the second update gets no
response and the third is rejected; three updates are made, one per item, in pop order. -/
theorem one_update_per_popped_item_witness :
    (list_files sample_world.fs).isSome = true ∧
    pop_answers sample_service 0 3 = sample_items.map item_answer ∧
    carries_item (sample_service.pop 3) = false ∧
    ∃ w', queue_event_callback sample_fopen sample_service none 4 sample_world = some w' ∧
      updated_items w'.trace =
        sample_items.map (fun item => { item with state := "successful" }) ∧
      (update_requests w'.trace).length = 3 := by
  obtain ⟨w', h1, h2, h3⟩ := one_update_per_popped_item (process_workitem sample_fopen)
    sample_service none
    sample_world sample_items 4 (by decide) (by decide) (by decide) (by decide)
  exact ⟨by decide, by decide, by decide, w', h1, h2, h3⟩

/-- C2: when the initial snapshot succeeds, the service hands out `items` and the processing
of each of them only adds regular files to the directory it starts from, then
`queue_event_callback` returns with the working directory exactly as it was before the cycle,
so its regular-file set and its snapshot are the pre-cycle ones; and every `pop_workitem`
call of the cycle, the first one and the one after each item, sees that same directory. -/
theorem drain_cycle_restores_directory (exec : Executor) (svc : Service)
    (wiq_env : Option String) (w : World) (items : List WorkitemWrapper) (fuel : Nat)
    (hsnap : (list_files w.fs).isSome = true)
    (hadds : ∀ item ∈ items, only_adds_files w.fs (exec item w.fs).fs)
    (hpops : pop_answers svc w.pop_calls items.length = items.map item_answer)
    (hend : carries_item (svc.pop (w.pop_calls + items.length)) = false)
    (hfuel : items.length < fuel) :
    ∃ w', queue_event_callback_with exec svc wiq_env fuel w = some w' ∧
      w'.fs = w.fs ∧ list_files w'.fs = list_files w.fs ∧
      pop_dirs w'.trace = pop_dirs w.trace ++ List.replicate (items.length + 1) w.fs := by
  obtain ⟨original_files, hsome⟩ := Option.isSome_iff_exists.1 hsnap
  have hrun := queue_event_callback_eq_run exec svc wiq_env fuel w original_files items hsome
    hpops hend hfuel
  obtain ⟨r1, r2⟩ := callback_run_restores exec svc wiq_env original_files items w hsome hadds
  exact ⟨_, hrun, r1, by rw [r1], r2⟩

/-- C2, at a concrete input: each of three items writes an output file of its own into
`sample_fs`; after the cycle the directory is `sample_fs` again, and so it was at each of the
four pops. -/
theorem drain_cycle_restores_directory_witness :
    (∀ item ∈ sample_items,
      only_adds_files sample_world.fs (sample_executor item sample_world.fs).fs) ∧
    (sample_executor sample_item sample_world.fs).fs ≠ sample_world.fs ∧
    ∃ w', queue_event_callback_with sample_executor sample_service none 4 sample_world =
        some w' ∧
      w'.fs = sample_fs ∧
      pop_dirs w'.trace = [sample_fs, sample_fs, sample_fs, sample_fs] := by
  obtain ⟨w', h1, h2, _, h4⟩ := drain_cycle_restores_directory sample_executor sample_service
    none sample_world sample_items 4 (by decide) (by decide) (by decide) (by decide) (by decide)
  exact ⟨by decide, by decide, w', h1, h2, h4⟩

/-- C4: when the directory is as the before-snapshot saw it and the processing function adds
exactly one regular file `f`, under a name the snapshot does not hold, then the new-file list
computed in `process_workitem_wrapper` is `[f]` and the one request sent to `update_workitem`
carries `files_len = 1` and one descriptor with `filename = f`, `id = NULL` and
`compressed = false`. -/
theorem single_new_file_is_attached (exec : Executor) (svc : Service)
    (original_files : FileList) (workitem : WorkitemWrapper) (w : World)
    (before after : List DirEntry) (f : String)
    (hsnap : list_files w.fs = some original_files)
    (hcwd : w.fs.cwd = some (before ++ after))
    (hexec : (exec workitem w.fs).fs.cwd =
      some (before ++ { d_name := f, is_symlink := false, st := some FileKind.regular } :: after))
    (hfresh : f ∉ original_files.files)
    (hname : f ≠ "." ∧ f ≠ "..") :
    (∃ r, get_new_files original_files (exec workitem w.fs).fs = some r ∧
      r.files = [f] ∧ r.count = 1) ∧
    ∃ req, update_requests
        (process_workitem_wrapper exec svc original_files workitem w).trace =
        update_requests w.trace ++ [req] ∧
      req.files_len = 1 ∧
      req.files = some [{ filename := f, id := none, compressed := false }] ∧
      req.workitem = { workitem with state := "successful" } := by
  obtain ⟨es, hes, hnames⟩ := list_files_names w.fs original_files hsnap
  rw [hcwd] at hes
  cases hes
  have hwf : original_files.names = original_files.files := by
    obtain ⟨r, hr, hfiles, hcount⟩ := list_files_some (before ++ after)
    have hfs : w.fs = { cwd := some (before ++ after) } := by
      cases hw : w.fs
      simp_all
    rw [hfs, hr] at hsnap
    cases hsnap
    simp [FileList.names, hcount, hfiles]
  have hfresh' : f ∉ original_files.names := by rw [hwf]; exact hfresh
  have hfs' : (exec workitem w.fs).fs =
      { cwd := some (before ++
        { d_name := f, is_symlink := false, st := some FileKind.regular } :: after) } := by
    cases hx : (exec workitem w.fs).fs
    simp_all
  obtain ⟨r, hr, hfiles, hcount⟩ := get_new_files_spec original_files
    (before ++ { d_name := f, is_symlink := false, st := some FileKind.regular } :: after)
  have hlisted : is_listed { d_name := f, is_symlink := false, st := some FileKind.regular }
      = true := by
    simp [is_listed, hname.1, hname.2]
  have hdiff : diff_spec original_files.names (snapshot_names (before ++
      { d_name := f, is_symlink := false, st := some FileKind.regular } :: after)) = [f] := by
    have hsplit : snapshot_names (before ++
        { d_name := f, is_symlink := false, st := some FileKind.regular } :: after) =
        snapshot_names before ++ f :: snapshot_names after := by
      simp [snapshot_names, List.filter_cons, hlisted]
    have hall : snapshot_names before ++ snapshot_names after = original_files.names := by
      rw [hnames]
      simp [snapshot_names]
    have hb : ∀ name ∈ snapshot_names before, name ∈ original_files.names := by
      intro name hn
      rw [← hall]
      exact List.mem_append_left _ hn
    have ha : ∀ name ∈ snapshot_names after, name ∈ original_files.names := by
      intro name hn
      rw [← hall]
      exact List.mem_append_right _ hn
    rw [hsplit, diff_spec, List.filter_append, List.filter_cons]
    have h1 : (snapshot_names before).filter
        (fun name => decide (name ∉ original_files.names)) = [] := by
      rw [List.filter_eq_nil_iff]
      intro name hn
      simpa using hb name hn
    have h2 : (snapshot_names after).filter
        (fun name => decide (name ∉ original_files.names)) = [] := by
      rw [List.filter_eq_nil_iff]
      intro name hn
      simpa using ha name hn
    rw [h1, h2]
    simp [hfresh']
  rw [hdiff] at hfiles
  have hcount1 : r.count = 1 := by rw [hcount, hfiles]; rfl
  refine ⟨⟨r, by rw [hfs']; exact hr, hfiles, hcount1⟩, ?_⟩
  have hspec := (process_workitem_wrapper_spec exec svc original_files workitem w).2.1
  refine ⟨_, hspec, ?_, ?_, rfl⟩
  · rw [hfs']
    simp [sent_request, hr, attachments_of, hcount1, FileList.names, hfiles]
  · rw [hfs']
    simp [sent_request, hr, attachments_of, hcount1, FileList.names, hfiles]

/-- C4, at a concrete input: processing `wi-1` in `sample_fs` writes `wi-1.out`; the request
sent carries that one file. -/
theorem single_new_file_is_attached_witness :
    list_files sample_world.fs = some sample_snapshot ∧
    (sample_executor sample_item sample_world.fs).fs.cwd =
      some (sample_dir ++
        [{ d_name := "wi-1.out", is_symlink := false, st := some FileKind.regular }]) ∧
    ∃ req, update_requests (process_workitem_wrapper sample_executor sample_service
        sample_snapshot sample_item sample_world).trace = [req] ∧
      req.files_len = 1 ∧
      req.files = some [{ filename := "wi-1.out", id := none, compressed := false }] := by
  obtain ⟨_, req, h1, h2, h3, _⟩ := single_new_file_is_attached sample_executor sample_service
    sample_snapshot sample_item sample_world sample_dir [] "wi-1.out" (by decide) (by decide)
    (by decide) (by decide) (by decide)
  exact ⟨by decide, by decide, req, h1, h2, h3⟩

/-- C5, refuted as stated: for the workitem `wi-1` no value of the success flag makes the
state block of `process_workitem_wrapper` produce the item the spec prescribes for
`Fatal ("application", "boom", "test")`; the failure branch yields `"retry"` with the fixed
texts of lines 131-134, and the wrapper as it runs sends the item with state
`"successful"`. -/
theorem fatal_outcome_is_not_reported :
    (∀ success : Int, (set_workitem_state success sample_item sample_world).1 ≠
      reconcile_state_spec (ExecutionOutcome.Fatal "application" "boom" "test") sample_item) ∧
    (set_workitem_state 0 sample_item sample_world).1 =
      { sample_item with state := "retry", errortype := "application",
                         errormessage := "Processing failed",
                         errorsource := "Unknown source" } ∧
    updated_items (process_workitem_wrapper (process_workitem sample_fopen) sample_service
      sample_snapshot sample_item sample_world).trace =
      [{ sample_item with state := "successful" }] := by
  refine ⟨?_, by decide, by decide⟩
  intro success
  unfold set_workitem_state
  split <;> decide

/-- C5, amended: `process_workitem_wrapper` takes no outcome from the processing function and
its success flag is fixed at 1, so the item of the one request it sends always has state
`"successful"` (the spec's mapping of `Success`) with the error fields as popped.  The only
other mapping in the code, the branch for a zero flag, gives state `"retry"` with errortype
`"application"`, errormessage `"Processing failed"` and errorsource `"Unknown source"`. -/
theorem wrapper_reports_successful (exec : Executor) (svc : Service)
    (original_files : FileList) (item : WorkitemWrapper) (w : World) (success : Int) :
    (∃ req, update_requests (process_workitem_wrapper exec svc original_files item w).trace =
        update_requests w.trace ++ [req] ∧
      req.workitem = reconcile_state_spec ExecutionOutcome.Success item ∧
      req.workitem.state = "successful" ∧ req.workitem.errortype = item.errortype ∧
      req.workitem.errormessage = item.errormessage ∧
      req.workitem.errorsource = item.errorsource) ∧
    (success ≠ 0 → (set_workitem_state success item w).1 =
      reconcile_state_spec ExecutionOutcome.Success item) ∧
    (success = 0 → (set_workitem_state success item w).1 =
      reconcile_state_spec
        (ExecutionOutcome.Retry "application" "Processing failed" "Unknown source") item) := by
  refine ⟨⟨_, (process_workitem_wrapper_spec exec svc original_files item w).2.1,
    rfl, rfl, rfl, rfl, rfl⟩, ?_, ?_⟩
  · intro h
    simp [set_workitem_state, h, reconcile_state_spec]
  · intro h
    simp [set_workitem_state, h, reconcile_state_spec]

/-- C5 amended, at a concrete input: the item `wi-2`, popped with error fields set, is sent
with state `"successful"` and those fields unchanged; a zero flag would give `"retry"`. -/
theorem wrapper_reports_successful_witness :
    (∃ req, update_requests (process_workitem_wrapper (process_workitem sample_fopen)
        sample_service sample_snapshot
        { id := "wi-2", retries := 2, state := "processing", errortype := "application",
          errormessage := "earlier failure", errorsource := "worker" } sample_world).trace =
        [req] ∧
      req.workitem.state = "successful" ∧ req.workitem.errortype = "application" ∧
      req.workitem.errormessage = "earlier failure" ∧ req.workitem.errorsource = "worker") ∧
    (set_workitem_state 0 sample_item sample_world).1.state = "retry" := by
  have h := wrapper_reports_successful (process_workitem sample_fopen) sample_service
    sample_snapshot
    { id := "wi-2", retries := 2, state := "processing", errortype := "application",
      errormessage := "earlier failure", errorsource := "worker" } sample_world 0
  obtain ⟨⟨req, h1, _, h3, h4, h5, h6⟩, _, _⟩ := h
  have h0 := (wrapper_reports_successful (process_workitem sample_fopen) sample_service
    sample_snapshot sample_item sample_world 0).2.2 rfl
  exact ⟨⟨req, h1, h3, h4, h5, h6⟩, by rw [h0]; rfl⟩

/-- C9: with `process_workitem` as it stands and an operating system whose
`fopen ("hello.txt", "w")` only creates files (see `only_creates_files`), when the snapshot
succeeds and the service hands out `items`, the cycle returns having sent one update per item,
in pop order, each with state `"successful"` and with errortype, errormessage and errorsource
as popped; and after the loop every entry of the working directory is an entry that was there
before the cycle, so no file created during processing remains, while every entry the snapshot
listed is still there. -/
theorem reference_cycle_all_successful (fopen : Fopen) (svc : Service)
    (wiq_env : Option String) (w : World) (items : List WorkitemWrapper) (fuel : Nat)
    (hsnap : (list_files w.fs).isSome = true)
    (hfopen : ∀ fs fs', fopen "hello.txt" fs = some fs' → only_creates_files fs fs')
    (hpops : pop_answers svc w.pop_calls items.length = items.map item_answer)
    (hend : carries_item (svc.pop (w.pop_calls + items.length)) = false)
    (hfuel : items.length < fuel) :
    ∃ w', queue_event_callback fopen svc wiq_env fuel w = some w' ∧
      updated_items w'.trace =
        updated_items w.trace ++ items.map (fun item => { item with state := "successful" }) ∧
      ∃ es es', w.fs.cwd = some es ∧ w'.fs.cwd = some es' ∧
        (∀ e ∈ es', e ∈ es) ∧ (∀ e ∈ es, is_listed e = true → e ∈ es') := by
  obtain ⟨original_files, hsome⟩ := Option.isSome_iff_exists.1 hsnap
  have hrun := queue_event_callback_eq_run (process_workitem fopen) svc wiq_env fuel w
    original_files items hsome hpops hend hfuel
  have hupd := callback_run_updates (process_workitem fopen) svc wiq_env original_files items w
  have hsweep := callback_run_sweeps (process_workitem fopen) svc wiq_env original_files items w
    hsome (process_workitem_only_creates fopen hfopen)
  exact ⟨_, hrun, hupd, hsweep⟩

/-- C9, at a concrete input: the queue holds three items and the working directory holds the
dangling link `hello.txt`.  Processing the first item follows the link and creates
`target.txt`; both names are attached and unlinked.  The later items create and lose
`hello.txt`.  Three updates are sent, each with state `"successful"`, and the directory ends
with `keep.txt` alone. -/
theorem reference_cycle_all_successful_witness :
    link_following_fopen "hello.txt" linked_fs = some linked_fs_written ∧
    (queue_event_callback link_following_fopen sample_service none 4 linked_world).map
      (fun w => (unlinked_names w.trace, w.fs)) =
      some (["hello.txt", "target.txt", "hello.txt", "hello.txt"],
        { cwd := some [{ d_name := "keep.txt", is_symlink := false,
                         st := some FileKind.regular }] }) ∧
    ∃ w', queue_event_callback link_following_fopen sample_service none 4 linked_world =
        some w' ∧
      (updated_items w'.trace).map (fun item => (item.id, item.state)) =
        [("wi-1", "successful"), ("wi-2", "successful"), ("wi-3", "successful")] ∧
      ∃ es es', linked_world.fs.cwd = some es ∧ w'.fs.cwd = some es' ∧
        (∀ e ∈ es', e ∈ es) ∧ (∀ e ∈ es, is_listed e = true → e ∈ es') := by
  obtain ⟨w', h1, h2, h3⟩ := reference_cycle_all_successful link_following_fopen
    sample_service none linked_world sample_items 4 (by decide)
    link_following_fopen_only_creates (by decide) (by decide) (by decide)
  exact ⟨by decide, by decide, w', h1, by rw [h2]; decide, h3⟩

end WorkitemAgent
